import Mathlib

/-!
Verification development for the Copernicus Data Space product-query tool
(`copernicus_query_app.py`).

The file shallowly embeds the three core components of the program:

* `search_products` / `searchAttempt` / `searchLoop` — the paginated fetcher
  `search_products(odata_filter, max_products, progress_callback)`.
  The HTTP/JSON layer is abstracted as a `FetchEnv`: the initial GET (whose
  `$top` parameter the function computes) and the next-link GETs each return
  either a parsed page (`value` array plus optional `@odata.nextLink`) or an
  exception text; any `requests`/JSON failure is one `.error` outcome, which
  the single `try/except` of the source turns into an error progress message
  and an empty result.  The unbounded `while` loop is given explicit fuel;
  `FetchOutcome.diverged` marks fuel exhaustion and `search_products` maps it
  to `none` (the theorems show the runs they speak about never hit it).
  The progress callback is modelled as the accumulated list of messages.

* `build_odata_filter` — the OData filter builder.  Bounding-box coordinates
  and the two dates reach the f-string already stringified, so the model
  takes them as `String`s.

* `extract_product_info` — the result normalizer, including a model of
  Python's `datetime.fromisoformat` (3.7–3.10 grammar), of timezone-aware
  versus naive datetimes (`PyDateTime.aware`), and of the `TypeError` that
  `list.sort` raises when its keys mix naive and aware datetimes.
  `Except String` carries the exceptions the source can raise there.
-/

namespace CopQ

/-- A parsed OData response page: `result.get('value', [])` and
`result.get('@odata.nextLink')`.  The record type is a parameter because
`search_products` never inspects individual records. -/
structure Page (α : Type) where
  value : List α
  nextLink : Option String
deriving Repr, DecidableEq

/-- The HTTP/JSON environment `search_products` runs against.  `initial top`
is the outcome of the parameterised GET on the products endpoint (the
function sends `$top = top`); `next link` is the outcome of a GET on a
next-page link.  An `.error e` stands for any exception raised by
`requests.get`, `raise_for_status` or `.json()`, with `e` the exception
text `str(e)`. -/
structure FetchEnv (α : Type) where
  initial : Nat → Except String (Page α)
  next : String → Except String (Page α)

/-- `f"Found {len(products)} products in initial query"` -/
def foundMsg (n : Nat) : String :=
  "Found " ++ toString n ++ " products in initial query"

/-- `f"Fetching page {page_count}... (total so far: {len(all_products)})"` -/
def fetchMsg (page total : Nat) : String :=
  "Fetching page " ++ toString page ++ "... (total so far: " ++ toString total ++ ")"

/-- `f"Error: {str(e)}"` -/
def errMsg (e : String) : String := "Error: " ++ e

/-- Outcome of the `try` block of `search_products`: normal return,
an exception caught by the `except` clause, or fuel exhaustion of the
model (the source loop simply keeps running).  Each outcome carries the
progress messages emitted so far and the final `page_count`. -/
inductive FetchOutcome (α : Type) where
  | ok (products : List α) (msgs : List String) (pages : Nat)
  | exn (e : String) (msgs : List String) (pages : Nat)
  | diverged
deriving Repr, DecidableEq

/-- The `while next_link and (max_products is None or len(all_products) < max_products)`
condition (the part after `next_link and`). -/
def continueCond : Option Nat → Nat → Bool
  | none, _ => true
  | some m, n => decide (n < m)

/-- The truncation `products[:max_products - len(all_products)]` applied to a
subsequent page, guarded by the truthiness test `if max_products:`. -/
def truncatePage (maxProducts : Option Nat) (accLen : Nat) (l : List α) : List α :=
  match maxProducts with
  | none => l
  | some m => if m = 0 then l else l.take (m - accLen)

/-- The pagination `while` loop of `search_products` (lines 126–146): while a
next link is present and the cap is not reached, bump `page_count`, emit the
progress message, GET the link, truncate the page if a cap applies, append,
and continue with the page's next link.  `fuel` bounds the number of
iterations the model will run. -/
def searchLoop (env : FetchEnv α) (maxProducts : Option Nat) :
    Nat → List α → List String → Option String → Nat → FetchOutcome α
  | fuel, acc, msgs, nextLink, pageCount =>
    match nextLink with
    | none => .ok acc msgs pageCount
    | some link =>
      match continueCond maxProducts acc.length with
      | false => .ok acc msgs pageCount
      | true =>
        match fuel with
        | 0 => .diverged
        | Nat.succ fuel =>
          match env.next link with
          | .error e => .exn e (msgs ++ [fetchMsg (pageCount + 1) acc.length]) (pageCount + 1)
          | .ok page =>
            searchLoop env maxProducts fuel
              (acc ++ truncatePage maxProducts acc.length page.value)
              (msgs ++ [fetchMsg (pageCount + 1) acc.length])
              page.nextLink (pageCount + 1)

/-- The `$top` request parameter:
`min(max_products, 1000) if max_products else 1000`. -/
def topParam : Option Nat → Nat
  | none => 1000
  | some m => if m = 0 then 1000 else min m 1000

/-- The body of the `try` block of `search_products`: the initial GET, the
"Found ..." message, then the pagination loop.  Note that the records of the
initial page are appended without truncation. -/
def searchAttempt (env : FetchEnv α) (maxProducts : Option Nat) (fuel : Nat) :
    FetchOutcome α :=
  match env.initial (topParam maxProducts) with
  | .error e => .exn e [] 1
  | .ok page =>
    searchLoop env maxProducts fuel page.value [foundMsg page.value.length]
      page.nextLink 1

/-- Final `page_count` of an outcome (`0` for a diverged run). -/
def pagesOf : FetchOutcome α → Nat
  | .ok _ _ p => p
  | .exn _ _ p => p
  | .diverged => 0

/-- `search_products`: run the `try` block; on an exception, emit
`f"Error: {str(e)}"` and return `[]`, discarding everything accumulated.
The result pairs the returned list with the progress messages; `none`
models a run whose loop exceeded the fuel (i.e. did not terminate within
`fuel` iterations). -/
def search_products (env : FetchEnv α) (maxProducts : Option Nat) (fuel : Nat) :
    Option (List α × List String) :=
  match searchAttempt env maxProducts fuel with
  | .ok ps msgs _ => some (ps, msgs)
  | .exn e msgs _ => some ([], msgs ++ [errMsg e])
  | .diverged => none

/-- Synthetic next-page link for page index `i` (links are opaque URLs to
the source; the model encodes the index in the link's length). -/
def chainLink (i : Nat) : String := String.mk (List.replicate i 'x')

/-- A synthetic server serving the finite page sequence `pages`: the initial
query returns `pages[0]` with a link to page 1 when it exists; following the
link for index `i` returns `pages[i]` with a link to page `i+1` when it
exists.  Unknown links answer with an HTTP error. -/
def mkChainEnv (pages : List (List α)) : FetchEnv α where
  initial := fun _ =>
    .ok ⟨pages.headD [], if 1 < pages.length then some (chainLink 1) else none⟩
  next := fun s =>
    let i := s.length
    if i < pages.length then
      .ok ⟨pages.getD i [], if i + 1 < pages.length then some (chainLink (i + 1)) else none⟩
    else .error "404 Client Error"

/-- A message is an error progress message when it starts with `"Error: "`. -/
def isErrMsg (m : String) : Bool := "Error: ".data.isPrefixOf m.data

theorem data_append (a b : String) : (a ++ b).data = a.data ++ b.data := rfl

theorem isPrefixOf_false_of_head_ne {a b : Char} (h : a ≠ b) (t r : List Char) :
    (a :: t).isPrefixOf (b :: r) = false := by
  simp [List.isPrefixOf, h]

theorem isPrefixOf_append_self (l r : List Char) : l.isPrefixOf (l ++ r) = true := by
  induction l with
  | nil => simp [List.isPrefixOf]
  | cons a t ih => simp [List.isPrefixOf, ih]

theorem isErrMsg_foundMsg (n : Nat) : isErrMsg (foundMsg n) = false := by
  have h : (foundMsg n).data =
      'F' :: ("ound ".data ++ ((toString n).data ++ " products in initial query".data)) := by
    simp [foundMsg, data_append, List.append_assoc]
  rw [isErrMsg, h, show "Error: ".data = 'E' :: "rror: ".data from rfl]
  exact isPrefixOf_false_of_head_ne (by decide) _ _

theorem isErrMsg_fetchMsg (p t : Nat) : isErrMsg (fetchMsg p t) = false := by
  have h : (fetchMsg p t).data =
      'F' :: ("etching page ".data ++ ((toString p).data ++ ("... (total so far: ".data ++
        ((toString t).data ++ ")".data)))) := by
    simp [fetchMsg, data_append, List.append_assoc]
  rw [isErrMsg, h, show "Error: ".data = 'E' :: "rror: ".data from rfl]
  exact isPrefixOf_false_of_head_ne (by decide) _ _

theorem isErrMsg_errMsg (e : String) : isErrMsg (errMsg e) = true := by
  rw [isErrMsg, errMsg, data_append]
  exact isPrefixOf_append_self _ _

/-- Every progress message emitted inside the `try` block before an exception
is a "Found ..." or "Fetching page ..." message, never an error message. -/
theorem searchLoop_exn_msgs (env : FetchEnv α) (maxP : Option Nat) :
    ∀ (fuel : Nat) (acc : List α) (msgs : List String) (link : Option String) (pc : Nat)
      (e : String) (msgs' : List String) (pc' : Nat),
      (∀ m ∈ msgs, isErrMsg m = false) →
      searchLoop env maxP fuel acc msgs link pc = .exn e msgs' pc' →
      ∀ m ∈ msgs', isErrMsg m = false := by
  intro fuel
  induction fuel with
  | zero =>
    intro acc msgs link pc e msgs' pc' hm h
    cases link with
    | none => simp [searchLoop] at h
    | some l =>
      rw [searchLoop] at h
      cases hc : continueCond maxP acc.length <;> simp [hc] at h
  | succ f ih =>
    intro acc msgs link pc e msgs' pc' hm h
    cases link with
    | none => simp [searchLoop] at h
    | some l =>
      rw [searchLoop] at h
      cases hc : continueCond maxP acc.length <;> rw [hc] at h
      · simp at h
      · cases hn : env.next l with
        | error e' =>
          rw [hn] at h
          simp only [FetchOutcome.exn.injEq] at h
          obtain ⟨he, hmsgs, hpc⟩ := h
          subst hmsgs
          intro m hmem
          rcases List.mem_append.mp hmem with h1 | h1
          · exact hm m h1
          · rcases List.mem_singleton.mp h1 with rfl
            exact isErrMsg_fetchMsg _ _
        | ok page =>
          rw [hn] at h
          refine ih _ _ _ _ _ _ _ ?_ h
          intro m hmem
          rcases List.mem_append.mp hmem with h1 | h1
          · exact hm m h1
          · rcases List.mem_singleton.mp h1 with rfl
            exact isErrMsg_fetchMsg _ _

/-- C1.  For every environment (filter/HTTP behaviour), optional
max-result-count and fuel, if an exception occurs anywhere in the
HTTP/JSON/pagination pipeline (the `try` block ends in `.exn`), then
`search_products` returns the empty list — discarding all records
accumulated from earlier successful pages — and the emitted progress
messages contain exactly one error message, which is the final
`"Error: " ++ e` message containing the exception text `e`. -/
theorem c1_error_all_or_nothing (α : Type) (env : FetchEnv α) (maxP : Option Nat)
    (fuel : Nat) (e : String) (msgs : List String) (pc : Nat)
    (h : searchAttempt env maxP fuel = .exn e msgs pc) :
    search_products env maxP fuel = some ([], msgs ++ [errMsg e]) ∧
    (msgs ++ [errMsg e]).countP isErrMsg = 1 ∧
    e.data <:+: (errMsg e).data := by
  refine ⟨by simp [search_products, h], ?_, ?_⟩
  · have hz : msgs.countP isErrMsg = 0 := by
      have hall : ∀ m ∈ msgs, isErrMsg m = false := by
        rw [searchAttempt] at h
        cases hi : env.initial (topParam maxP) with
        | error e' =>
          rw [hi] at h
          simp only [FetchOutcome.exn.injEq] at h
          obtain ⟨-, hmsgs, -⟩ := h
          subst hmsgs
          intro m hm
          simp at hm
        | ok page =>
          rw [hi] at h
          exact searchLoop_exn_msgs env maxP fuel page.value _ page.nextLink 1 e msgs pc
            (by intro m hm; rcases List.mem_singleton.mp hm with rfl
                exact isErrMsg_foundMsg _) h
      rw [List.countP_eq_zero]
      intro m hm
      simp [hall m hm]
    rw [List.countP_append, hz]
    simp [List.countP_cons, isErrMsg_errMsg]
  · rw [errMsg, data_append]
    exact (List.suffix_append _ _).isInfix

/-- A concrete erroring run for C1: the first page succeeds with two records
and a next link, the second fetch raises; everything is discarded. -/
def c1Env : FetchEnv Nat where
  initial := fun _ => .ok ⟨[7, 8], some "L"⟩
  next := fun _ => .error "boom"

theorem c1_error_all_or_nothing_witness :
    search_products c1Env none 5 = some ([], [foundMsg 2, fetchMsg 2 2] ++ [errMsg "boom"]) ∧
    ([foundMsg 2, fetchMsg 2 2] ++ [errMsg "boom"]).countP isErrMsg = 1 ∧
    "boom".data <:+: (errMsg "boom").data :=
  c1_error_all_or_nothing Nat c1Env none 5 "boom" [foundMsg 2, fetchMsg 2 2] 2 (by decide)

theorem chainLink_length (i : Nat) : (chainLink i).length = i := by
  simp [chainLink, String.length]

/-- One step of unfolding of the prefix of the concatenation:
`(pages.take (j+1)).flatten = (pages.take j).flatten ++ pages.getD j []` below
`pages.length`. -/
theorem take_succ_join (pages : List (List α)) (j : Nat) (hj : j < pages.length) :
    (pages.take (j + 1)).flatten = (pages.take j).flatten ++ pages.getD j [] := by
  rw [List.take_succ, List.flatten_append]
  congr 1
  rw [List.getElem?_eq_getElem hj]
  simp [List.getD, List.getElem?_eq_getElem hj]

/-- Walking the synthetic page chain with no cap: from position `j` the loop
returns the full concatenation and one progress message per remaining page. -/
theorem chain_loop (pages : List (List α)) :
    ∀ (fuel j : Nat) (M : List String),
      1 ≤ j → j ≤ pages.length → pages.length - j ≤ fuel →
      searchLoop (mkChainEnv pages) none fuel ((pages.take j).flatten) M
          (if j < pages.length then some (chainLink j) else none) j =
        .ok pages.flatten
          (M ++ (List.range (pages.length - j)).map
            (fun i => fetchMsg (j + i + 1) ((pages.take (j + i)).flatten.length)))
          pages.length := by
  intro fuel
  induction fuel with
  | zero =>
    intro j M h1 h2 h3
    have hj : j = pages.length := by omega
    subst hj
    simp [searchLoop, List.take_length]
  | succ f ih =>
    intro j M h1 h2 h3
    by_cases hj : j < pages.length
    · have hnext : (mkChainEnv pages).next (chainLink j) =
          .ok ⟨pages.getD j [], if j + 1 < pages.length then some (chainLink (j + 1)) else none⟩ := by
        simp [mkChainEnv, chainLink_length, hj]
      rw [if_pos hj, searchLoop]
      simp only [continueCond, hnext, truncatePage]
      rw [← take_succ_join pages j hj]
      rw [ih (j + 1) (M ++ [fetchMsg (j + 1) ((pages.take j).flatten.length)])
        (by omega) (by omega) (by omega)]
      have hmsg : (List.range (pages.length - j)).map
            (fun i => fetchMsg (j + i + 1) ((pages.take (j + i)).flatten.length)) =
          fetchMsg (j + 1) ((pages.take j).flatten.length) ::
            (List.range (pages.length - (j + 1))).map
              (fun i => fetchMsg (j + 1 + i + 1) ((pages.take (j + 1 + i)).flatten.length)) := by
        rw [show pages.length - j = (pages.length - (j + 1)) + 1 by omega]
        rw [List.range_succ_eq_map, List.map_cons, List.map_map]
        congr 1
        apply List.map_congr_left
        intro i _
        have e1 : j + (i + 1) = j + 1 + i := by omega
        simp only [Function.comp_apply, Nat.succ_eq_add_one, e1]
      rw [hmsg, List.append_assoc, List.singleton_append]
    · have hj' : j = pages.length := by omega
      subst hj'
      simp [searchLoop, List.take_length]

/-- C3.  For every finite sequence of `N ≥ 1` pages, each carrying a
next-page link except the last, and no max-result-count, `search_products`
returns exactly the concatenation of all pages' record arrays in page
order, and emits the initial "Found ... products in initial query" message
followed by exactly `N - 1` further progress messages, one per subsequent
page, reporting the page number and the running total. -/
theorem c3_pagination_concat_progress (α : Type) (pages : List (List α))
    (hne : pages ≠ []) (fuel : Nat) (hfuel : pages.length ≤ fuel) :
    search_products (mkChainEnv pages) none fuel =
      some (pages.flatten,
        foundMsg (pages.headD []).length ::
          (List.range (pages.length - 1)).map
            (fun i => fetchMsg (i + 2) ((pages.take (i + 1)).flatten.length))) := by
  have hpos : 0 < pages.length := List.length_pos.mpr hne
  have hhead : pages.headD [] = (pages.take 1).flatten := by
    cases pages with
    | nil => simp at hne
    | cons p ps => simp
  have hA : searchAttempt (mkChainEnv pages) none fuel =
      .ok pages.flatten
        ([foundMsg (pages.headD []).length] ++
          (List.range (pages.length - 1)).map
            (fun i => fetchMsg (1 + i + 1) ((pages.take (1 + i)).flatten.length)))
        pages.length := by
    have h0 : searchAttempt (mkChainEnv pages) none fuel =
        searchLoop (mkChainEnv pages) none fuel (pages.headD [])
          [foundMsg (pages.headD []).length]
          (if 1 < pages.length then some (chainLink 1) else none) 1 := rfl
    rw [h0, hhead]
    exact chain_loop pages fuel 1 _ (le_refl 1) hpos (by omega)
  have hfin : search_products (mkChainEnv pages) none fuel =
      some (pages.flatten,
        [foundMsg (pages.headD []).length] ++
          (List.range (pages.length - 1)).map
            (fun i => fetchMsg (1 + i + 1) ((pages.take (1 + i)).flatten.length))) := by
    rw [search_products, hA]
  rw [hfin, List.singleton_append]
  congr 3
  apply List.map_congr_left
  intro i _
  rw [show 1 + i = i + 1 by omega]

theorem c3_pagination_concat_progress_witness :
    search_products (mkChainEnv [[1, 2], [3]]) none 5 =
      some ([1, 2, 3], [foundMsg 2, fetchMsg 2 2]) := by
  have := c3_pagination_concat_progress Nat [[1, 2], [3]] (by decide) 5 (by decide)
  simpa using this

/-- Walking the synthetic page chain with cap `K`, the accumulator always
being the `K`-truncated prefix concatenation: the loop returns the first
`K` records of the full concatenation. -/
theorem chain_loop_cap (pages : List (List α)) (K : Nat) :
    ∀ (fuel j : Nat) (M : List String) (pc : Nat),
      1 ≤ j → j ≤ pages.length → pages.length - j ≤ fuel →
      ∃ msgs' pc',
        searchLoop (mkChainEnv pages) (some K) fuel (((pages.take j).flatten).take K) M
            (if j < pages.length then some (chainLink j) else none) pc =
          .ok (pages.flatten.take K) msgs' pc' := by
  intro fuel
  induction fuel with
  | zero =>
    intro j M pc h1 h2 h3
    have hj : j = pages.length := by omega
    subst hj
    exact ⟨M, pc, by simp [searchLoop, List.take_length]⟩
  | succ f ih =>
    intro j M pc h1 h2 h3
    by_cases hj : j < pages.length
    · by_cases hK : ((pages.take j).flatten.take K).length < K
      · have hlt : (pages.take j).flatten.length < K := by
          rw [List.length_take] at hK
          omega
        have hacc : (pages.take j).flatten.take K = (pages.take j).flatten :=
          List.take_of_length_le (by omega)
        have hc : continueCond (some K) (((pages.take j).flatten).take K).length = true := by
          simp only [continueCond, decide_eq_true_eq]
          exact hK
        have hnext : (mkChainEnv pages).next (chainLink j) =
            .ok ⟨pages.getD j [], if j + 1 < pages.length then some (chainLink (j + 1)) else none⟩ := by
          simp [mkChainEnv, chainLink_length, hj]
        rw [if_pos hj, searchLoop, hc, hnext]
        simp only [truncatePage, if_neg (by omega : ¬(K = 0))]
        rw [hacc]
        have hstep : (pages.take j).flatten ++
            (pages.getD j []).take (K - (pages.take j).flatten.length) =
            ((pages.take (j + 1)).flatten).take K := by
          rw [take_succ_join pages j hj, List.take_append_eq_append_take,
            List.take_of_length_le (le_of_lt hlt)]
        rw [hstep]
        exact ih (j + 1) _ _ (by omega) (by omega) (by omega)
      · have hc : continueCond (some K) (((pages.take j).flatten).take K).length = false := by
          simp only [continueCond, decide_eq_false_iff_not]
          exact hK
        have hKle : K ≤ (pages.take j).flatten.length := by
          rw [List.length_take] at hK
          omega
        have hsame : pages.flatten.take K = ((pages.take j).flatten).take K := by
          conv_lhs => rw [← List.take_append_drop j pages]
          rw [List.flatten_append, List.take_append_eq_append_take,
            show K - (pages.take j).flatten.length = 0 by omega]
          simp
        refine ⟨M, pc, ?_⟩
        rw [if_pos hj, searchLoop, hc, hsame]
    · have hj' : j = pages.length := by omega
      subst hj'
      exact ⟨M, pc, by simp [searchLoop, List.take_length]⟩

/-- C2 (amended).  For every max-result-count `K ≥ 1` and sequence of pages
collectively containing more than `K` records, **provided the first page
contains at most `K` records** (which the `$top = min(K, 1000)` request
parameter arranges in practice — the source never truncates the first
page), `search_products` returns exactly `K` records: the first `K`
records of the page concatenation in order, i.e. truncation happens inside
whichever page crosses the `K` boundary, keeping that page's records in
order up to the remaining quota. -/
theorem c2_cap_enforcement_amended (α : Type) (pages : List (List α)) (K fuel : Nat)
    (hK : 1 ≤ K) (hne : pages ≠ [])
    (hfirst : (pages.headD []).length ≤ K)
    (htotal : K < pages.flatten.length)
    (hfuel : pages.length ≤ fuel) :
    ∃ msgs, search_products (mkChainEnv pages) (some K) fuel =
        some (pages.flatten.take K, msgs) ∧ (pages.flatten.take K).length = K := by
  have hpos : 0 < pages.length := List.length_pos.mpr hne
  have hhead : pages.headD [] = (pages.take 1).flatten := by
    cases pages with
    | nil => simp at hne
    | cons p ps => simp
  have hfirst' : ((pages.take 1).flatten).length ≤ K := by
    rw [← hhead]
    exact hfirst
  obtain ⟨msgs', pc', hloop⟩ := chain_loop_cap pages K fuel 1
    [foundMsg (pages.headD []).length] 1 (le_refl 1) hpos (by omega)
  have hA : searchAttempt (mkChainEnv pages) (some K) fuel =
      .ok (pages.flatten.take K) msgs' pc' := by
    have h0 : searchAttempt (mkChainEnv pages) (some K) fuel =
        searchLoop (mkChainEnv pages) (some K) fuel (pages.headD [])
          [foundMsg (pages.headD []).length]
          (if 1 < pages.length then some (chainLink 1) else none) 1 := rfl
    rw [h0]
    nth_rewrite 1 [show pages.headD [] = ((pages.take 1).flatten).take K by
      rw [hhead]
      exact (List.take_of_length_le hfirst').symm]
    exact hloop
  refine ⟨msgs', ?_, ?_⟩
  · rw [search_products, hA]
  · rw [List.length_take]
    omega

theorem c2_cap_enforcement_amended_witness :
    ∃ msgs, search_products (mkChainEnv [[10], [20, 30]]) (some 2) 5 =
        some (([[10], [20, 30]] : List (List Nat)).flatten.take 2, msgs) ∧
      (([[10], [20, 30]] : List (List Nat)).flatten.take 2).length = 2 :=
  c2_cap_enforcement_amended Nat [[10], [20, 30]] 2 5 (by decide) (by decide)
    (by decide) (by decide) (by decide)

/-- C2, counterexample to the claim as stated: with `K = 1` and a single
page of two records (collectively more than `K`), `search_products`
returns both records — the first page is never truncated. -/
theorem c2_first_page_uncapped_counterexample :
    1 < ([[10, 20]] : List (List Nat)).flatten.length ∧
    search_products (mkChainEnv [[10, 20]]) (some 1) 5 =
      some ([10, 20], [foundMsg 2]) ∧
    ([10, 20] : List Nat).length ≠ 1 := by decide

/-- With a cap `K` and every fetched page non-empty, each loop iteration
strictly grows the accumulator, so the loop finishes within its fuel as
soon as `K ≤ acc.length + fuel`, and the final page counter stays below
`pc + (K - acc.length) + 1`. -/
theorem searchLoop_terminates (env : FetchEnv α) (K : Nat)
    (hnext : ∀ l p, env.next l = .ok p → p.value ≠ []) :
    ∀ (fuel : Nat) (acc : List α) (msgs : List String) (link : Option String) (pc : Nat),
      K ≤ acc.length + fuel →
      searchLoop env (some K) fuel acc msgs link pc ≠ .diverged ∧
      pagesOf (searchLoop env (some K) fuel acc msgs link pc) ≤ pc + (K - acc.length) + 1 := by
  intro fuel
  induction fuel with
  | zero =>
    intro acc msgs link pc hfuel
    cases link with
    | none =>
      refine ⟨by simp [searchLoop], ?_⟩
      simp only [searchLoop, pagesOf]
      omega
    | some l =>
      have hc : continueCond (some K) acc.length = false := by
        simp only [continueCond, decide_eq_false_iff_not]
        omega
      rw [searchLoop, hc]
      refine ⟨by simp, ?_⟩
      simp only [pagesOf]
      omega
  | succ f ih =>
    intro acc msgs link pc hfuel
    cases link with
    | none =>
      refine ⟨by simp [searchLoop], ?_⟩
      simp only [searchLoop, pagesOf]
      omega
    | some l =>
      cases hc : continueCond (some K) acc.length with
      | false =>
        rw [searchLoop, hc]
        refine ⟨by simp, ?_⟩
        simp only [pagesOf]
        omega
      | true =>
        have hlt : acc.length < K := by
          simpa [continueCond] using hc
        rw [searchLoop, hc]
        cases hn : env.next l with
        | error e =>
          refine ⟨by simp, ?_⟩
          simp only [pagesOf]
          omega
        | ok page =>
          have hvne : page.value ≠ [] := hnext l page hn
          have htr : 1 ≤ (truncatePage (some K) acc.length page.value).length := by
            simp only [truncatePage, if_neg (by omega : ¬(K = 0))]
            rw [List.length_take]
            have : 0 < page.value.length := List.length_pos.mpr hvne
            omega
          have := ih (acc ++ truncatePage (some K) acc.length page.value)
            (msgs ++ [fetchMsg (pc + 1) acc.length]) page.nextLink (pc + 1)
            (by rw [List.length_append]; omega)
          refine ⟨this.1, ?_⟩
          refine le_trans this.2 ?_
          rw [List.length_append]
          omega

/-- C10.  With a max-result-count `K ≥ 1`, over any environment — including
an unboundedly long next-link chain — in which every fetched page has at
least one record, `search_products` terminates (any fuel of at least `K`
iterations is never exhausted), and performs at most `K` page fetches
beyond the first: the final page counter is at most `K + 1`. -/
theorem c10_cap_bounds_fetches (α : Type) (env : FetchEnv α) (K fuel : Nat)
    (hK : 1 ≤ K) (hfuel : K ≤ fuel)
    (hinit : ∀ t p, env.initial t = .ok p → p.value ≠ [])
    (hnext : ∀ l p, env.next l = .ok p → p.value ≠ []) :
    searchAttempt env (some K) fuel ≠ .diverged ∧
    pagesOf (searchAttempt env (some K) fuel) ≤ K + 1 ∧
    (search_products env (some K) fuel).isSome := by
  have hmain : searchAttempt env (some K) fuel ≠ .diverged ∧
      pagesOf (searchAttempt env (some K) fuel) ≤ K + 1 := by
    rw [searchAttempt]
    cases hi : env.initial (topParam (some K)) with
    | error e =>
      refine ⟨by simp, ?_⟩
      simp only [pagesOf]
      omega
    | ok page =>
      have hpos : 0 < page.value.length :=
        List.length_pos.mpr (hinit _ page hi)
      have := searchLoop_terminates env K hnext fuel page.value
        [foundMsg page.value.length] page.nextLink 1 (by omega)
      exact ⟨this.1, le_trans this.2 (by omega)⟩
  refine ⟨hmain.1, hmain.2, ?_⟩
  rw [search_products]
  cases h : searchAttempt env (some K) fuel with
  | ok ps msgs p => simp
  | exn e msgs p => simp
  | diverged => exact absurd h hmain.1

/-- An infinite next-link chain, one record per page, for the C10 witness. -/
def c10Env : FetchEnv Nat where
  initial := fun _ => .ok ⟨[0], some "L"⟩
  next := fun l => .ok ⟨[0], some l⟩

theorem c10_cap_bounds_fetches_witness :
    searchAttempt c10Env (some 2) 2 ≠ .diverged ∧
    pagesOf (searchAttempt c10Env (some 2) 2) ≤ 2 + 1 ∧
    (search_products c10Env (some 2) 2).isSome :=
  c10_cap_bounds_fetches Nat c10Env 2 2 (by decide) (by decide)
    (fun t p h => by cases h; simp [c10Env])
    (fun l p h => by cases h; simp [c10Env])

/-- One entry of `PRODUCT_CONFIGS`. -/
structure ProductConfig where
  name : String
  collection : String
  product_type : String
  instrument : String
  description : String
  requires_tile : Bool
deriving Repr, DecidableEq

/-- `PRODUCT_CONFIGS['sentinel2_l2a']` -/
def sentinel2_l2a : ProductConfig :=
  ⟨"Sentinel-2 L2A", "SENTINEL-2", "S2MSI2A", "MSI",
    "MSI Level-2A Bottom of Atmosphere Reflectance", true⟩

/-- `PRODUCT_CONFIGS['sentinel3_olci_l1_efr']` -/
def sentinel3_olci_l1_efr : ProductConfig :=
  ⟨"Sentinel-3 OLCI L1 EFR", "SENTINEL-3", "OL_1_EFR___", "OLCI",
    "OLCI Level-1 Full Resolution", false⟩

/-- `PRODUCT_CONFIGS['sentinel3_slstr_l1_rbt']` -/
def sentinel3_slstr_l1_rbt : ProductConfig :=
  ⟨"Sentinel-3 SLSTR L1 RBT", "SENTINEL-3", "SL_1_RBT___", "SLSTR",
    "SLSTR Level-1 Radiances and Brightness Temperatures", false⟩

/-- `PRODUCT_CONFIGS['sentinel1_grd']` -/
def sentinel1_grd : ProductConfig :=
  ⟨"Sentinel-1 GRD", "SENTINEL-1", "GRD", "SAR",
    "SAR Ground Range Detected", false⟩

/-- The four static product configurations of the application. -/
def PRODUCT_CONFIGS : List ProductConfig :=
  [sentinel2_l2a, sentinel3_olci_l1_efr, sentinel3_slstr_l1_rbt, sentinel1_grd]

/-- The bounding box, with each coordinate already stringified as the
f-string interpolation `f"{bbox['west']} {bbox['south']}"` etc. would
render it. -/
structure BoundingBox where
  west : String
  south : String
  east : String
  north : String
deriving Repr, DecidableEq

/-- The closed 5-vertex `POLYGON((w s,e s,e n,w n,w s))` text. -/
def bboxPolygon (b : BoundingBox) : String :=
  "POLYGON((" ++ b.west ++ " " ++ b.south ++ "," ++ b.east ++ " " ++ b.south ++ "," ++
    b.east ++ " " ++ b.north ++ "," ++ b.west ++ " " ++ b.north ++ "," ++
    b.west ++ " " ++ b.south ++ "))"

/-- `f"Collection/Name eq '{config['collection']}'"` -/
def collectionFilter (c : ProductConfig) : String :=
  "Collection/Name eq '" ++ c.collection ++ "'"

/-- `f"OData.CSC.Intersects(area=geography'SRID=4326;{bbox_polygon}')"` -/
def spatialFilter (b : BoundingBox) : String :=
  "OData.CSC.Intersects(area=geography'SRID=4326;" ++ bboxPolygon b ++ "')"

/-- The `productType` attribute clause of the Sentinel-2 branch. -/
def typeFilter (c : ProductConfig) : String :=
  "Attributes/OData.CSC.StringAttribute/any(att:att/Name eq 'productType' and att/OData.CSC.StringAttribute/Value eq '" ++
    c.product_type ++ "')"

/-- `f"contains(Name,'{tile}')"` -/
def tileFilter (t : String) : String := "contains(Name,'" ++ t ++ "')"

/-- The `instrumentShortName` attribute clause of the non-Sentinel-2 branch. -/
def instrumentFilter (c : ProductConfig) : String :=
  "Attributes/OData.CSC.StringAttribute/any(att:att/Name eq 'instrumentShortName' and att/OData.CSC.StringAttribute/Value eq '" ++
    c.instrument ++ "')"

/-- `f"contains(Name,'{config['product_type']}')"` -/
def nameFilter (c : ProductConfig) : String :=
  "contains(Name,'" ++ c.product_type ++ "')"

/-- `f"ContentDate/Start ge {start_time} and ContentDate/Start le {end_time}"`
with the day bounds expanded. -/
def temporalFilter (sd ed : String) : String :=
  "ContentDate/Start ge " ++ sd ++ "T00:00:00.000Z and ContentDate/Start le " ++
    ed ++ "T23:59:59.999Z"

/-- Python truthiness of the optional tile string (`if tile:`). -/
def tileTruthy : Option String → Bool
  | none => false
  | some t => decide (t ≠ "")

/-- `build_odata_filter(config, bbox, start_date, end_date, tile)`
(lines 57–102): collection clause, then the collection-specific branch
(`productType` attribute, plus the tile-contains clause when a tile is
truthy, for SENTINEL-2; `instrumentShortName` attribute plus the
product-type name-contains clause otherwise), then the spatial clause,
then the temporal clause, all joined by `" and "`. -/
def build_odata_filter (c : ProductConfig) (b : BoundingBox) (sd ed : String)
    (tile : Option String) : String :=
  let base :=
    if c.collection = "SENTINEL-2" then
      if tileTruthy tile then
        collectionFilter c ++ " and " ++ typeFilter c ++ " and " ++
          tileFilter (tile.getD "") ++ " and " ++ spatialFilter b
      else
        collectionFilter c ++ " and " ++ typeFilter c ++ " and " ++ spatialFilter b
    else
      collectionFilter c ++ " and " ++ instrumentFilter c ++ " and " ++
        nameFilter c ++ " and " ++ spatialFilter b
  base ++ " and " ++ temporalFilter sd ed

/-- The shape a filter has when the tile clause `contains(Name,'<t>')` was
included: collection, productType attribute clause, tile clause, spatial,
temporal.  (This names the only shape of `build_odata_filter` output that
carries a tile clause; "the tile clause appears" is formalised as the
output having this shape for some `t`.) -/
def filterWithTileClause (c : ProductConfig) (b : BoundingBox) (sd ed t : String) : String :=
  collectionFilter c ++ " and " ++ typeFilter c ++ " and " ++ tileFilter t ++ " and " ++
    spatialFilter b ++ " and " ++ temporalFilter sd ed

theorem append_ne_of_getD {a b x y : List Char} (k : Nat)
    (h1 : k < a.length) (h2 : k < b.length) (h3 : a.getD k ' ' ≠ b.getD k ' ') :
    a ++ x ≠ b ++ y := by
  intro he
  apply h3
  rw [← List.getD_append a x ' ' k h1, ← List.getD_append b y ' ' k h2, he]

theorem spatial_ne_contains_tail (x y : List Char) :
    "OData.CSC.Intersects(area=geography'SRID=4326;".data ++ x ≠
      "contains(Name,'".data ++ y :=
  append_ne_of_getD 0 (by decide) (by decide) (by decide)

theorem instr_ne_type_tail (x y : List Char) :
    "Attributes/OData.CSC.StringAttribute/any(att:att/Name eq 'instrumentShortName' and att/OData.CSC.StringAttribute/Value eq '".data ++ x ≠
      "Attributes/OData.CSC.StringAttribute/any(att:att/Name eq 'productType' and att/OData.CSC.StringAttribute/Value eq '".data ++ y :=
  append_ne_of_getD 58 (by decide) (by decide) (by decide)

/-- The SENTINEL-2 filter without a tile clause never coincides with a
with-tile-clause filter (the spatial clause starts with `OData...` where
the tile clause would start with `contains(`). -/
theorem noTileS2_ne_withTile (c : ProductConfig) (b : BoundingBox) (sd ed t : String) :
    collectionFilter c ++ " and " ++ typeFilter c ++ " and " ++ spatialFilter b ++
      " and " ++ temporalFilter sd ed ≠ filterWithTileClause c b sd ed t := by
  intro h
  have hd := congrArg String.data h
  simp only [collectionFilter, typeFilter, tileFilter, spatialFilter, temporalFilter,
    filterWithTileClause, bboxPolygon, data_append, List.append_assoc] at hd
  replace hd := List.append_cancel_left hd
  replace hd := List.append_cancel_left hd
  replace hd := List.append_cancel_left hd
  replace hd := List.append_cancel_left hd
  replace hd := List.append_cancel_left hd
  replace hd := List.append_cancel_left hd
  replace hd := List.append_cancel_left hd
  replace hd := List.append_cancel_left hd
  exact spatial_ne_contains_tail _ _ hd

/-- The non-Sentinel-2 filter (instrument branch) never coincides with a
with-tile-clause filter (the attribute clauses differ at
`instrumentShortName` versus `productType`). -/
theorem other_ne_withTile (c : ProductConfig) (b : BoundingBox) (sd ed t : String) :
    collectionFilter c ++ " and " ++ instrumentFilter c ++ " and " ++ nameFilter c ++
      " and " ++ spatialFilter b ++ " and " ++ temporalFilter sd ed ≠
      filterWithTileClause c b sd ed t := by
  intro h
  have hd := congrArg String.data h
  simp only [collectionFilter, instrumentFilter, nameFilter, typeFilter, tileFilter,
    spatialFilter, temporalFilter, filterWithTileClause, bboxPolygon, data_append,
    List.append_assoc] at hd
  replace hd := List.append_cancel_left hd
  replace hd := List.append_cancel_left hd
  replace hd := List.append_cancel_left hd
  replace hd := List.append_cancel_left hd
  exact instr_ne_type_tail _ _ hd

/-- Unfolding of `build_odata_filter` on the SENTINEL-2 branch with a truthy
tile: the with-tile-clause shape. -/
theorem build_eq_withTile (c : ProductConfig) (hcoll : c.collection = "SENTINEL-2")
    (b : BoundingBox) (sd ed : String) (t : String) (ht : t ≠ "") :
    build_odata_filter c b sd ed (some t) = filterWithTileClause c b sd ed t := by
  have htt : tileTruthy (some t) = true := by simp [tileTruthy, ht]
  simp [build_odata_filter, hcoll, htt, filterWithTileClause]

/-- Unfolding of `build_odata_filter` on the SENTINEL-2 branch with a falsy
tile. -/
theorem build_eq_s2_noTile (c : ProductConfig) (hcoll : c.collection = "SENTINEL-2")
    (b : BoundingBox) (sd ed : String) (tile : Option String)
    (ht : tileTruthy tile = false) :
    build_odata_filter c b sd ed tile =
      collectionFilter c ++ " and " ++ typeFilter c ++ " and " ++ spatialFilter b ++
        " and " ++ temporalFilter sd ed := by
  simp [build_odata_filter, hcoll, ht]

/-- Unfolding of `build_odata_filter` on the non-SENTINEL-2 branch. -/
theorem build_eq_other (c : ProductConfig) (hcoll : ¬(c.collection = "SENTINEL-2"))
    (b : BoundingBox) (sd ed : String) (tile : Option String) :
    build_odata_filter c b sd ed tile =
      collectionFilter c ++ " and " ++ instrumentFilter c ++ " and " ++ nameFilter c ++
        " and " ++ spatialFilter b ++ " and " ++ temporalFilter sd ed := by
  simp [build_odata_filter, hcoll]

/-- C4.  For every defined product configuration, bounding box, date pair
and optional tile string, the filter built by `build_odata_filter` carries
the tile-substring clause `contains(Name,'<tile>')` — i.e. has the
with-tile-clause shape for some `t` — if and only if the configuration's
requires-tile flag is true and a non-empty tile string was supplied. -/
theorem c4_tile_clause_iff (c : ProductConfig) (hc : c ∈ PRODUCT_CONFIGS)
    (b : BoundingBox) (sd ed : String) (tile : Option String) :
    (∃ t, build_odata_filter c b sd ed tile = filterWithTileClause c b sd ed t) ↔
      (c.requires_tile = true ∧ ∃ t, tile = some t ∧ t ≠ "") := by
  simp only [PRODUCT_CONFIGS, List.mem_cons, List.not_mem_nil, or_false] at hc
  rcases hc with rfl | rfl | rfl | rfl
  · cases tile with
    | none =>
      apply iff_of_false
      · rintro ⟨t, h⟩
        exact noTileS2_ne_withTile sentinel2_l2a b sd ed t h
      · rintro ⟨-, t, ht, -⟩
        exact Option.noConfusion ht
    | some t' =>
      by_cases he : t' = ""
      · subst he
        apply iff_of_false
        · rintro ⟨t, h⟩
          exact noTileS2_ne_withTile sentinel2_l2a b sd ed t h
        · rintro ⟨-, t, ht, hne⟩
          exact hne (Option.some.injEq _ _ ▸ ht).symm
      · apply iff_of_true
        · exact ⟨t', build_eq_withTile sentinel2_l2a rfl b sd ed t' he⟩
        · exact ⟨rfl, t', rfl, he⟩
  · apply iff_of_false
    · rintro ⟨t, h⟩
      exact other_ne_withTile sentinel3_olci_l1_efr b sd ed t h
    · rintro ⟨hreq, -⟩
      exact absurd hreq (by decide)
  · apply iff_of_false
    · rintro ⟨t, h⟩
      exact other_ne_withTile sentinel3_slstr_l1_rbt b sd ed t h
    · rintro ⟨hreq, -⟩
      exact absurd hreq (by decide)
  · apply iff_of_false
    · rintro ⟨t, h⟩
      exact other_ne_withTile sentinel1_grd b sd ed t h
    · rintro ⟨hreq, -⟩
      exact absurd hreq (by decide)

/-- The bounding box of the spec's end-to-end scenario. -/
def bbox0 : BoundingBox := ⟨"11.0", "46.0", "12.0", "47.0"⟩

theorem c4_tile_clause_iff_witness :
    (∃ t, build_odata_filter sentinel2_l2a bbox0 "2020-01-01" "2020-01-31" (some "T32TPS") =
        filterWithTileClause sentinel2_l2a bbox0 "2020-01-01" "2020-01-31" t) ↔
      (sentinel2_l2a.requires_tile = true ∧
        ∃ t, (some "T32TPS" : Option String) = some t ∧ t ≠ "") :=
  c4_tile_clause_iff sentinel2_l2a (by decide) bbox0 "2020-01-01" "2020-01-31"
    (some "T32TPS")

/-- C8.  For every defined product configuration, bounding box, date pair
and optional tile, the built filter is exactly the `" and "`-join of its
clauses in the fixed order: collection, then type/instrument (with the
tile clause, when present, inside that group), then spatial, then
temporal. -/
theorem c8_clause_order (c : ProductConfig) (hc : c ∈ PRODUCT_CONFIGS)
    (b : BoundingBox) (sd ed : String) (tile : Option String) :
    build_odata_filter c b sd ed tile =
      String.intercalate " and "
        ([collectionFilter c] ++
          (if c.requires_tile then
            [typeFilter c] ++
              (if tileTruthy tile then [tileFilter (tile.getD "")] else [])
          else [instrumentFilter c, nameFilter c]) ++
          [spatialFilter b, temporalFilter sd ed]) := by
  simp only [PRODUCT_CONFIGS, List.mem_cons, List.not_mem_nil, or_false] at hc
  rcases hc with rfl | rfl | rfl | rfl
  · cases ht : tileTruthy tile with
    | false =>
      rw [build_eq_s2_noTile sentinel2_l2a rfl b sd ed tile ht]
      rfl
    | true =>
      obtain ⟨t', rfl⟩ : ∃ t', tile = some t' := by
        cases tile with
        | none => simp [tileTruthy] at ht
        | some t' => exact ⟨t', rfl⟩
      have he : t' ≠ "" := by simpa [tileTruthy] using ht
      rw [build_eq_withTile sentinel2_l2a rfl b sd ed t' he]
      rfl
  · rw [build_eq_other sentinel3_olci_l1_efr (by decide) b sd ed tile]
    rfl
  · rw [build_eq_other sentinel3_slstr_l1_rbt (by decide) b sd ed tile]
    rfl
  · rw [build_eq_other sentinel1_grd (by decide) b sd ed tile]
    rfl

theorem c8_clause_order_witness :
    build_odata_filter sentinel2_l2a bbox0 "2020-01-01" "2020-01-31" (some "T32TPS") =
      String.intercalate " and "
        ([collectionFilter sentinel2_l2a] ++
          (if sentinel2_l2a.requires_tile then
            [typeFilter sentinel2_l2a] ++
              (if tileTruthy (some "T32TPS") then
                [tileFilter ((some "T32TPS" : Option String).getD "")] else [])
          else [instrumentFilter sentinel2_l2a, nameFilter sentinel2_l2a]) ++
          [spatialFilter bbox0, temporalFilter "2020-01-01" "2020-01-31"]) :=
  c8_clause_order sentinel2_l2a (by decide) bbox0 "2020-01-01" "2020-01-31"
    (some "T32TPS")

/-- One entry of a record's `Attributes` array, accessed with
`attr.get('Name')` / `attr.get('Value')`. -/
structure PyAttr where
  Name : Option String
  Value : Option String
deriving Repr, DecidableEq

/-- The record's `ContentDate` object (`{'Start': ...}`). -/
structure ContentDateRec where
  Start : Option String
deriving Repr, DecidableEq

/-- A raw product record as consumed by `extract_product_info`: each field
`none` when the key is absent (a present-but-`None` value behaves like an
absent one for every access the code performs, except `S3Path`, whose
presence is tested with `in`; `Start` being `None` and being `''` are both
falsy and unobservable apart). -/
structure RawProduct where
  Name : Option String
  ContentDate : Option ContentDateRec
  Online : Option Bool
  ContentLength : Option Nat
  Attributes : Option (List PyAttr)
  S3Path : Option String
deriving Repr, DecidableEq

/-- A Python `datetime`: a point on the totally ordered timeline (`ord`,
in microseconds from 0001-01-01T00:00:00, UTC-adjusted when an offset is
present) plus the offset-awareness flag.  Python compares two datetimes
only when both are naive or both aware; mixing raises `TypeError`. -/
structure PyDateTime where
  ord : Int
  aware : Bool
deriving Repr, DecidableEq

/-- `datetime.min`: 0001-01-01T00:00:00, offset-naive. -/
def pyDateTimeMin : PyDateTime := ⟨0, false⟩

/-- Numeric value of a decimal digit character. -/
def dval (c : Char) : Nat := c.toNat - 48

/-- Two decimal digits. -/
def parse2 : List Char → Option (Nat × List Char)
  | a :: b :: rest =>
    if a.isDigit && b.isDigit then some (10 * dval a + dval b, rest) else none
  | _ => none

/-- Four decimal digits. -/
def parse4 : List Char → Option (Nat × List Char)
  | a :: b :: c :: d :: rest =>
    if a.isDigit && b.isDigit && c.isDigit && d.isDigit then
      some (1000 * dval a + 100 * dval b + 10 * dval c + dval d, rest)
    else none
  | _ => none

def expectChar (c : Char) : List Char → Option (List Char)
  | x :: rest => if x = c then some rest else none
  | _ => none

def isLeap (y : Nat) : Bool := (y % 4 == 0 && y % 100 != 0) || y % 400 == 0

def daysInMonth (y m : Nat) : Nat :=
  if m = 2 then (if isLeap y then 29 else 28)
  else if m = 4 ∨ m = 6 ∨ m = 9 ∨ m = 11 then 30 else 31

def daysBeforeMonth (y m : Nat) : Nat :=
  ((List.range (m - 1)).map (fun i => daysInMonth y (i + 1))).sum

def daysBeforeYear (y : Nat) : Nat :=
  365 * (y - 1) + (y - 1) / 4 - (y - 1) / 100 + (y - 1) / 400

/-- Wall-clock microseconds from 0001-01-01T00:00:00. -/
def wallMicros (y mo d hh mi ss us : Nat) : Int :=
  (((((daysBeforeYear y + daysBeforeMonth y mo + (d - 1)) * 24 + hh) * 60 + mi) * 60
    + ss) * 1000000 + us : Nat)

/-- Fractional seconds: exactly 3 or 6 digits, as microseconds. -/
def parseFrac (l : List Char) : Option (Nat × List Char) :=
  let ds := l.takeWhile Char.isDigit
  let rest := l.dropWhile Char.isDigit
  if ds.length = 3 then some ((ds.foldl (fun a c => 10 * a + dval c) 0) * 1000, rest)
  else if ds.length = 6 then some (ds.foldl (fun a c => 10 * a + dval c) 0, rest)
  else none

/-- `HH[:MM[:SS[.fff[fff]]]]`. -/
def parseTime (l : List Char) : Option (Nat × Nat × Nat × Nat × List Char) := do
  let (hh, r1) ← parse2 l
  guard (hh ≤ 23)
  match r1 with
  | ':' :: r2 => do
    let (mi, r3) ← parse2 r2
    guard (mi ≤ 59)
    match r3 with
    | ':' :: r4 => do
      let (ss, r5) ← parse2 r4
      guard (ss ≤ 59)
      match r5 with
      | '.' :: r6 => do
        let (us, r7) ← parseFrac r6
        pure (hh, mi, ss, us, r7)
      | _ => pure (hh, mi, ss, 0, r5)
    | _ => pure (hh, mi, 0, 0, r3)
  | _ => pure (hh, 0, 0, 0, r1)

/-- `[+HH:MM | -HH:MM]` at end of input: the UTC offset in seconds, `none`
when absent (offset-naive). -/
def parseOffset (l : List Char) : Option (Option Int) :=
  match l with
  | [] => some none
  | '+' :: r => do
    let (oh, r1) ← parse2 r
    guard (oh ≤ 23)
    let r2 ← expectChar ':' r1
    let (om, r3) ← parse2 r2
    guard (om ≤ 59)
    guard (r3 = [])
    pure (some ((oh * 3600 + om * 60 : Nat) : Int))
  | '-' :: r => do
    let (oh, r1) ← parse2 r
    guard (oh ≤ 23)
    let r2 ← expectChar ':' r1
    let (om, r3) ← parse2 r2
    guard (om ≤ 59)
    guard (r3 = [])
    pure (some (-((oh * 3600 + om * 60 : Nat) : Int)))
  | _ => none

/-- Model of Python's `datetime.fromisoformat` (the 3.7–3.10 grammar
`YYYY-MM-DD[*HH[:MM[:SS[.fff[fff]]]][+HH:MM]]`, any single separator
character): `none` models the `ValueError` raised on an invalid string.
An offset-bearing string yields an aware datetime ordered by its UTC
instant; an offset-free one a naive datetime ordered by wall clock. -/
def fromisoformat (s : String) : Option PyDateTime := do
  let (y, r1) ← parse4 s.data
  guard (1 ≤ y)
  let r2 ← expectChar '-' r1
  let (mo, r3) ← parse2 r2
  guard (1 ≤ mo ∧ mo ≤ 12)
  let r4 ← expectChar '-' r3
  let (d, r5) ← parse2 r4
  guard (1 ≤ d ∧ d ≤ daysInMonth y mo)
  match r5 with
  | [] => pure ⟨wallMicros y mo d 0 0 0 0, false⟩
  | _sep :: r6 => do
    let (hh, mi, ss, us, r7) ← parseTime r6
    let off ← parseOffset r7
    match off with
    | none => pure ⟨wallMicros y mo d hh mi ss us, false⟩
    | some o => pure ⟨wallMicros y mo d hh mi ss us - o * 1000000, true⟩

/-- Round-half-to-even of a rational to an integer (Python's `round`
applied to the exact value; the division by the power of two 1,048,576
is exact in binary floating point, so the exact-value model is faithful
up to the final float representation). -/
def roundHalfEven (q : ℚ) : ℤ :=
  let f := ⌊q⌋
  let r := q - (f : ℚ)
  if r < 1 / 2 then f
  else if 1 / 2 < r then f + 1
  else if Even f then f else f + 1

/-- `round(x, 2)` on the exact value. -/
def roundTo2 (q : ℚ) : ℚ := (roundHalfEven (100 * q) : ℚ) / 100

/-- One normalized product entry. -/
structure ProductSummary where
  product_name : String
  acquisition_date : Option PyDateTime
  datetime : String
  online : Bool
  size_bytes : Nat
  size_mb : ℚ
  s3_path : Option String
deriving DecidableEq

/-- `content_date = product.get('ContentDate', {}); start_str =
content_date.get('Start', '')` (a present-but-`None` `Start` is collapsed
to `""`: both are falsy and the difference is unobservable downstream). -/
def startString (p : RawProduct) : String :=
  match p.ContentDate with
  | none => ""
  | some cd => cd.Start.getD ""

/-- The attribute scan (lines 169–174): guarded by `if 'Attributes' in
product and product['Attributes']:`, the value of the first attribute
named `S3Path`. -/
def attrS3 (p : RawProduct) : Option String :=
  match p.Attributes with
  | some (a :: rest) => (((a :: rest).find? (fun x => x.Name == some "S3Path")).bind PyAttr.Value)
  | _ => none

/-- Lines 168–177: the attribute value, then — `if not s3_path and 'S3Path'
in product:` — the top-level field. -/
def resolveS3 (p : RawProduct) : Option String :=
  let s0 := attrS3 p
  if s0.getD "" = "" ∧ p.S3Path.isSome then p.S3Path else s0

def valueErrorText : String := "ValueError: Invalid isoformat string"

/-- `start_str.replace('Z', '+00:00')`: every occurrence of the
one-character pattern `'Z'` is replaced by `'+00:00'`. -/
def pyReplaceZ (s : String) : String :=
  ⟨(s.data.map (fun c => if c = 'Z' then "+00:00".data else [c])).flatten⟩

/-- `acquisition_date`: `None` for a falsy `start_str`, otherwise
`datetime.fromisoformat(start_str.replace('Z', '+00:00'))`, whose
`ValueError` on an unparsable string propagates (no try/except here). -/
def acqE (p : RawProduct) : Except String (Option PyDateTime) :=
  if startString p = "" then .ok none
  else
    match fromisoformat (pyReplaceZ (startString p)) with
    | some dt => .ok (some dt)
    | none => .error valueErrorText

instance {ε α : Type} [DecidableEq ε] [DecidableEq α] : DecidableEq (Except ε α) :=
  fun x y =>
    match x, y with
    | .error a, .error b =>
      if h : a = b then isTrue (by rw [h]) else isFalse (by intro he; cases he; exact h rfl)
    | .ok a, .ok b =>
      if h : a = b then isTrue (by rw [h]) else isFalse (by intro he; cases he; exact h rfl)
    | .error _, .ok _ => isFalse (by intro h; cases h)
    | .ok _, .error _ => isFalse (by intro h; cases h)

/-- The body of the per-record loop of `extract_product_info`
(lines 156–190). -/
def extractOne (p : RawProduct) : Except String ProductSummary :=
  match acqE p with
  | .error e => .error e
  | .ok acq =>
    .ok {

      product_name := p.Name.getD ""
      acquisition_date := acq
      datetime := startString p
      online := p.Online.getD false
      size_bytes := p.ContentLength.getD 0
      size_mb := if p.ContentLength.getD 0 = 0 then 0
        else roundTo2 ((p.ContentLength.getD 0 : ℚ) / (1024 * 1024))
      s3_path := resolveS3 p }

/-- The per-record loop over the whole list: stops at the first record
whose timestamp parse raises. -/
def extractAll : List RawProduct → Except String (List ProductSummary)
  | [] => .ok []
  | p :: ps =>
    match extractOne p with
    | .error e => .error e
    | .ok s =>
      match extractAll ps with
      | .error e => .error e
      | .ok l => .ok (s :: l)

/-- The sort key `x['acquisition_date'] if x['acquisition_date'] else
datetime.min`. -/
def sortKey (s : ProductSummary) : PyDateTime := s.acquisition_date.getD pyDateTimeMin

/-- Stable insertion: the inserted element is the originally earlier one,
so it goes before any element with an equal key. -/
def insertByKey (x : ProductSummary) : List ProductSummary → List ProductSummary
  | [] => [x]
  | y :: ys =>
    if (sortKey y).ord < (sortKey x).ord then y :: insertByKey x ys else x :: y :: ys

/-- Stable ascending sort by the acquisition-date key. -/
def sortByDate : List ProductSummary → List ProductSummary
  | [] => []
  | x :: xs => insertByKey x (sortByDate xs)

def typeErrorText : String :=
  "TypeError: cannot compare offset-naive and offset-aware datetimes"

/-- `product_list.sort(key=...)` (line 192): comparing an offset-naive and
an offset-aware datetime raises `TypeError`, and a list mixing the two
kinds of keys always performs such a comparison (any list of at least two
elements compares each inserted element against the already-sorted ones);
otherwise the sort is stable ascending. -/
def sortSummaries (l : List ProductSummary) : Except String (List ProductSummary) :=
  match l with
  | [] => .ok []
  | s :: rest =>
    if rest.all (fun r => (sortKey r).aware == (sortKey s).aware) then
      .ok (sortByDate (s :: rest))
    else .error typeErrorText

/-- `extract_product_info(products)` (lines 153–193): normalize each
record, then sort by acquisition date. -/
def extract_product_info (products : List RawProduct) :
    Except String (List ProductSummary) :=
  match extractAll products with
  | .error e => .error e
  | .ok l => sortSummaries l

/-- Projections of a successful per-record extraction: the storage path is
`resolveS3`, the MB size the rounded byte count. -/
theorem extractOne_ok_fields (p : RawProduct) (s : ProductSummary)
    (h : extractOne p = .ok s) :
    s.s3_path = resolveS3 p ∧
    s.size_mb = (if p.ContentLength.getD 0 = 0 then 0
      else roundTo2 ((p.ContentLength.getD 0 : ℚ) / (1024 * 1024))) := by
  unfold extractOne at h
  cases ha : acqE p with
  | error e =>
    rw [ha] at h
    exact absurd h (by simp)
  | ok acq =>
    rw [ha] at h
    simp only [Except.ok.injEq] at h
    subst h
    exact ⟨rfl, rfl⟩

/-- A record whose `ContentDate.Start` is present but not an ISO-8601
timestamp. -/
def c5Record : RawProduct := ⟨some "B", some ⟨some "garbage"⟩, none, none, none, none⟩

/-- C5, counterexample to the claim as stated: a present but unparsable
`ContentDate.Start` makes `extract_product_info` fail (in Python an
uncaught `ValueError` from `datetime.fromisoformat`) instead of keeping
the record with a null timestamp. -/
theorem c5_unparsable_start_raises :
    extract_product_info [c5Record] = .error valueErrorText := by decide

/-- C5 (amended).  A missing or empty `ContentDate.Start` is tolerated:
`extract_product_info` keeps the record, with a null acquisition
timestamp; only a present, non-empty, unparsable string raises. -/
theorem c5_missing_start_tolerated (p : RawProduct) (h : startString p = "") :
    ∃ s, extract_product_info [p] = .ok [s] ∧ s.acquisition_date = none := by
  have hacq : acqE p = .ok none := by
    unfold acqE
    rw [if_pos h]
  have h1 : extractOne p = .ok
      { product_name := p.Name.getD ""
        acquisition_date := none
        datetime := startString p
        online := p.Online.getD false
        size_bytes := p.ContentLength.getD 0
        size_mb := if p.ContentLength.getD 0 = 0 then 0
          else roundTo2 ((p.ContentLength.getD 0 : ℚ) / (1024 * 1024))
        s3_path := resolveS3 p } := by
    unfold extractOne
    rw [hacq]
  refine ⟨{ product_name := p.Name.getD ""
            acquisition_date := none
            datetime := startString p
            online := p.Online.getD false
            size_bytes := p.ContentLength.getD 0
            size_mb := if p.ContentLength.getD 0 = 0 then 0
              else roundTo2 ((p.ContentLength.getD 0 : ℚ) / (1024 * 1024))
            s3_path := resolveS3 p }, ?_, rfl⟩
  unfold extract_product_info extractAll
  rw [h1]
  rfl

/-- A record without a `ContentDate` at all (null timestamp, naive
`datetime.min` sort key). -/
def c6RecordNull : RawProduct := ⟨none, none, none, none, none, none⟩

/-- A record with a normal `"...Z"` timestamp (offset-aware sort key). -/
def c6RecordAware : RawProduct :=
  ⟨some "A", some ⟨some "2020-01-01T00:00:00Z"⟩, none, none, none, none⟩

/-- C6 (code bug).  The claim matches the code's evident intent — the
`datetime.min` sentinel exists precisely so that null timestamps sort
first — but the code crashes on the claim's central scenario: the
sentinel is offset-naive while every `"...Z"` timestamp parses to an
offset-aware datetime, and Python raises `TypeError` on comparing the
two.  Each record alone normalizes fine; together, the sort raises
instead of placing the null-timestamp record first. -/
theorem c6_mixed_sort_type_error :
    extract_product_info [c6RecordNull, c6RecordAware] = .error typeErrorText ∧
    (extract_product_info [c6RecordNull]).isOk = true ∧
    (extract_product_info [c6RecordAware]).isOk = true := by decide

/-- A record carrying both an `S3Path` attribute with an empty value and a
top-level `S3Path` field. -/
def c7Record : RawProduct :=
  ⟨some "C", none, none, none, some [⟨some "S3Path", some ""⟩], some "/top"⟩

/-- C7, counterexample to the claim as stated: when the first `S3Path`
attribute is found but its value is the empty string, the different
top-level `S3Path` value — not the attribute's — ends up in the summary:
the fallback tests `if not s3_path` (Python falsiness), not whether an
attribute was found. -/
theorem c7_empty_attr_value_falls_back :
    attrS3 c7Record = some "" ∧ c7Record.S3Path = some "/top" ∧
    extract_product_info [c7Record] =
      .ok [⟨"C", none, "", false, 0, 0, some "/top"⟩] := by decide

/-- C7 (amended).  Per record: the `S3Path` attribute's value wins when it
is truthy (non-empty); when the attribute scan yields a falsy value (no
attribute found, or its value empty or missing), the top-level `S3Path`
field is used if that key is present; otherwise the attribute result
stands. -/
theorem c7_s3path_precedence_amended (p : RawProduct) (s : ProductSummary)
    (h : extractOne p = .ok s) :
    (∀ v, attrS3 p = some v → v ≠ "" → s.s3_path = some v) ∧
    ((attrS3 p).getD "" = "" → p.S3Path.isSome = true → s.s3_path = p.S3Path) ∧
    ((attrS3 p).getD "" = "" → p.S3Path = none → s.s3_path = attrS3 p) := by
  have h3 := (extractOne_ok_fields p s h).1
  rw [h3]
  unfold resolveS3
  refine ⟨?_, ?_, ?_⟩
  · intro v hv hne
    simp [hv, hne]
  · intro hf hs
    simp [hf, hs]
  · intro hf hn
    simp [hf, hn]

def c7WitnessRecord : RawProduct :=
  ⟨none, none, none, none, some [⟨some "S3Path", some "/attr"⟩], some "/top"⟩

def c7WitnessSummary : ProductSummary := ⟨"", none, "", false, 0, 0, some "/attr"⟩

theorem c7_s3path_precedence_amended_witness :
    (∀ v, attrS3 c7WitnessRecord = some v → v ≠ "" →
      c7WitnessSummary.s3_path = some v) ∧
    ((attrS3 c7WitnessRecord).getD "" = "" → c7WitnessRecord.S3Path.isSome = true →
      c7WitnessSummary.s3_path = c7WitnessRecord.S3Path) ∧
    ((attrS3 c7WitnessRecord).getD "" = "" → c7WitnessRecord.S3Path = none →
      c7WitnessSummary.s3_path = attrS3 c7WitnessRecord) :=
  c7_s3path_precedence_amended c7WitnessRecord c7WitnessSummary (by decide)

/-- C9.  For every record that normalizes, the summary's `size_mb` is the
byte count divided by 1,048,576 and rounded (half-even, on the exact
value) to 2 decimal places, or 0 when the byte count is 0 or absent; in
particular a `ContentLength` of 1,572,864 bytes gives `size_mb = 1.5`. -/
theorem c9_size_mb_rounding (p : RawProduct) (s : ProductSummary)
    (h : extractOne p = .ok s) :
    s.size_mb = (if p.ContentLength.getD 0 = 0 then 0
      else roundTo2 ((p.ContentLength.getD 0 : ℚ) / 1048576)) ∧
    (p.ContentLength = some 1572864 → s.size_mb = 3 / 2) := by
  have h2 := (extractOne_ok_fields p s h).2
  constructor
  · rw [h2]
    norm_num
  · intro hc
    rw [h2]
    simp only [hc, Option.getD_some]
    norm_num [roundTo2, roundHalfEven]

def c9Record : RawProduct := ⟨some "D", none, none, some 1572864, none, none⟩

def c9Summary : ProductSummary := ⟨"D", none, "", false, 1572864, 3 / 2, none⟩

theorem c9Record_eval : extractOne c9Record = .ok c9Summary := by
  unfold extractOne
  rw [show acqE c9Record = .ok none from by decide]
  unfold c9Record c9Summary
  norm_num [startString, attrS3, resolveS3, roundTo2, roundHalfEven]

theorem c9_size_mb_rounding_witness :
    c9Summary.size_mb = (if c9Record.ContentLength.getD 0 = 0 then 0
      else roundTo2 ((c9Record.ContentLength.getD 0 : ℚ) / 1048576)) ∧
    (c9Record.ContentLength = some 1572864 → c9Summary.size_mb = 3 / 2) :=
  c9_size_mb_rounding c9Record c9Summary c9Record_eval

def c5WitnessRecord : RawProduct := ⟨some "E", none, none, none, none, none⟩

theorem c5_missing_start_tolerated_witness :
    ∃ s, extract_product_info [c5WitnessRecord] = .ok [s] ∧
      s.acquisition_date = none :=
  c5_missing_start_tolerated c5WitnessRecord (by decide)

end CopQ
